import Mathlib

/-!
Verification of the CogniSpace event-ledger / analytics / handoff system.

The event envelope validation, the API client URL builder and fetch
helper, and the pagination client are embedded from the TypeScript
sources (`contracts/eventEnvelope.ts`, `api/logs.ts`, `App.tsx`).
The EventLedger, AnalyticsEngine health score and the HandoffCoordinator
VALIDATED step are not present in the source tree; they are modelled
from the specification, as marked on each definition.
-/

namespace CogniSpace

/-- The closed set of actor roles, from `EventEnvelopeSchema.actor_role`
(`z.enum(["PM", "LEAD", "DEV", "AUDITOR", "SYSTEM", "USER"])`). -/
def actorRoles : List String := ["PM", "LEAD", "DEV", "AUDITOR", "SYSTEM", "USER"]

/-- The closed set of channels, from `EventEnvelopeSchema.channel`
(`z.enum(["GLOBAL", "LOCAL", "SYSTEM", "AUTOPROMPT"])`). -/
def channels : List String := ["GLOBAL", "LOCAL", "SYSTEM", "AUTOPROMPT"]

/-- An unvalidated envelope as it arrives at the schema: every field may be
absent (`none`).  `parent_event_id` is nullable and optional, hence doubly
optional.  Numeric fields arrive as arbitrary rationals, modelling
JavaScript numbers before `.int()` / `.nonnegative()` checks. -/
structure RawEnvelope where
  schema_version : Option String
  event_id : Option String
  parent_event_id : Option (Option String)
  session_id : Option String
  trace_id : Option String
  timestamp_utc : Option String
  actor_id : Option String
  actor_role : Option String
  channel : Option String
  event_type : Option String
  payload : Option (List (String × String))
  safety_flags : Option (List String)
  token_in : Option ℚ
  token_out : Option ℚ
  latency_ms : Option ℚ
  cost_usd : Option ℚ
deriving DecidableEq

/-- A validated event envelope, the output type of `EventEnvelopeSchema`. -/
structure EventEnvelope where
  schema_version : String
  event_id : String
  parent_event_id : Option String
  session_id : String
  trace_id : String
  timestamp_utc : String
  actor_id : String
  actor_role : String
  channel : String
  event_type : String
  payload : List (String × String)
  safety_flags : List String
  token_in : ℚ
  token_out : ℚ
  latency_ms : ℚ
  cost_usd : ℚ
deriving DecidableEq

/-- `z.number().int().nonnegative()`: the value is a non-negative integer. -/
def isNonnegInt (q : ℚ) : Bool := q.den == 1 && decide (0 ≤ q)

/-- `z.number().nonnegative()`: the value is non-negative. -/
def isNonnegRat (q : ℚ) : Bool := decide (0 ≤ q)

/-- All fields that `EventEnvelopeSchema` requires to be present
(everything except the optional `parent_event_id` and the defaulted
`safety_flags` / cost-performance fields). -/
def requiredPresent (r : RawEnvelope) : Bool :=
  r.schema_version.isSome && r.event_id.isSome && r.session_id.isSome &&
  r.trace_id.isSome && r.timestamp_utc.isSome && r.actor_id.isSome &&
  r.actor_role.isSome && r.channel.isSome && r.event_type.isSome &&
  r.payload.isSome

/-- The `actor_role` field, when present, is in the closed enum. -/
def roleOk (r : RawEnvelope) : Bool := r.actor_role.all (actorRoles.contains ·)

/-- The `channel` field, when present, is in the closed enum. -/
def channelOk (r : RawEnvelope) : Bool := r.channel.all (channels.contains ·)

/-- The cost/perf fields, when present, satisfy their zod refinements:
`token_in` / `token_out` / `latency_ms` are non-negative integers and
`cost_usd` is non-negative. -/
def costOk (r : RawEnvelope) : Bool :=
  r.token_in.all isNonnegInt && r.token_out.all isNonnegInt &&
  r.latency_ms.all isNonnegInt && r.cost_usd.all isNonnegRat

/-- `EventEnvelopeSchema.parse`: succeeds exactly when zod validation
succeeds, applying the declared defaults (`safety_flags := []`, numeric
fields `:= 0`). -/
def parseEnvelope (r : RawEnvelope) : Except String EventEnvelope :=
  match r.schema_version, r.event_id, r.session_id, r.trace_id, r.timestamp_utc,
        r.actor_id, r.actor_role, r.channel, r.event_type, r.payload with
  | some sv, some eid, some sid, some tid, some ts, some aid, some role, some ch,
    some et, some pay =>
      if actorRoles.contains role then
        if channels.contains ch then
          if costOk r then
            Except.ok
              { schema_version := sv
                event_id := eid
                parent_event_id := r.parent_event_id.getD none
                session_id := sid
                trace_id := tid
                timestamp_utc := ts
                actor_id := aid
                actor_role := role
                channel := ch
                event_type := et
                payload := pay
                safety_flags := r.safety_flags.getD []
                token_in := r.token_in.getD 0
                token_out := r.token_out.getD 0
                latency_ms := r.latency_ms.getD 0
                cost_usd := r.cost_usd.getD 0 }
          else Except.error "invalid cost or performance field"
        else Except.error "invalid channel"
      else Except.error "invalid actor_role"
  | _, _, _, _, _, _, _, _, _, _ => Except.error "missing required field"

/-- An envelope at rest in the ledger, tagged with the monotonic
`sequence` the ledger assigned at append time. -/
structure StoredEvent where
  sequence : Nat
  envelope : EventEnvelope
deriving DecidableEq

/-- Modelled from the spec: the EventLedger's durable state — a per-session
ordered store of event records (the ledger implementation is not in the
source tree; only its API clients are).  Sessions are an association list
from `session_id` to the session's events in append order. -/
structure Ledger where
  sessions : List (String × List StoredEvent)
deriving DecidableEq

/-- The empty ledger. -/
def Ledger.empty : Ledger := ⟨[]⟩

/-- First-match association lookup over the session store. -/
def Ledger.eventsAux : List (String × List StoredEvent) → String → List StoredEvent
  | [], _ => []
  | (k, v) :: rest, sid => if k == sid then v else Ledger.eventsAux rest sid

/-- The events currently stored for a session (empty for an unknown id). -/
def Ledger.events (L : Ledger) (sid : String) : List StoredEvent :=
  Ledger.eventsAux L.sessions sid

/-- Replace (or create) the event list of one session. -/
def updateSessions :
    List (String × List StoredEvent) → String → List StoredEvent →
    List (String × List StoredEvent)
  | [], sid, evs => [(sid, evs)]
  | (k, v) :: rest, sid, evs =>
      if k == sid then (sid, evs) :: rest
      else (k, v) :: updateSessions rest sid evs

/-- Modelled from the spec: `append(envelope) -> sequence` — fails with a
validation error when the envelope does not pass `EventEnvelopeSchema`,
otherwise assigns the next sequence for the envelope's session and stores
it; already-stored envelopes are never mutated or deleted. -/
def Ledger.append (L : Ledger) (r : RawEnvelope) : Except String (Ledger × Nat) :=
  match parseEnvelope r with
  | Except.error e => Except.error e
  | Except.ok env =>
      let sid := env.session_id
      let evs := L.events sid
      let seq := evs.length
      Except.ok (⟨updateSessions L.sessions sid (evs ++ [⟨seq, env⟩])⟩, seq)

/-- `append`, keeping the old ledger when validation rejects the envelope. -/
def Ledger.appendOr (L : Ledger) (r : RawEnvelope) : Ledger :=
  match L.append r with
  | Except.ok res => res.1
  | Except.error _ => L

/-- The ledger reached by appending a list of raw envelopes to the empty
ledger (rejected envelopes leave the ledger unchanged). -/
def appendAll (rs : List RawEnvelope) : Ledger :=
  rs.foldl Ledger.appendOr Ledger.empty

/-- Modelled from the spec: `read(session_id, since_sequence, limit)` —
returns the session's envelopes with sequence at least `since_sequence`,
in strict sequence order, truncated to `limit`. -/
def Ledger.read (L : Ledger) (sid : String) (since : Nat) (limit : Nat) :
    List StoredEvent :=
  ((L.events sid).filter (fun e => since ≤ e.sequence)).take limit

/-- Event types counted as failure/anomaly indicators by the rule-based
anomaly checks. -/
def failureEventTypes : List String := ["ERROR", "FAILURE", "CONTEXT_HANDOFF_FAILED"]

/-- Event types counted as revision/retry (churn) events. -/
def churnEventTypes : List String := ["REVISION", "RETRY"]

/-- Modelled from the spec: an event is an anomaly event when it carries a
safety flag or is of a failure event type (the rule-based anomaly checks of
the AnalyticsEngine, which is not in the source tree). -/
def isAnomaly (e : EventEnvelope) : Bool :=
  !e.safety_flags.isEmpty || failureEventTypes.contains e.event_type

/-- An event is a churn (revision/retry-type) event. -/
def isChurn (e : EventEnvelope) : Bool := churnEventTypes.contains e.event_type

/-- The resource spend of one event: tokens, latency and cost. -/
def resourceSpend (e : EventEnvelope) : ℚ :=
  e.token_in + e.token_out + e.latency_ms + e.cost_usd

/-- Total resource spend of a stream. -/
def resourceTotal (l : List EventEnvelope) : ℚ := (l.map resourceSpend).sum

/-- Number of abrupt actor-role switches between consecutive events. -/
def roleSwitches : List EventEnvelope → Nat
  | [] => 0
  | [_] => 0
  | a :: b :: rest =>
      (if a.actor_role = b.actor_role then 0 else 1) + roleSwitches (b :: rest)

/-- Modelled from the spec: the health-score weight configuration — weights
are configuration passed in at call time, not hardcoded. -/
structure HealthConfig where
  anomalyWeight : ℚ
  churnWeight : ℚ
  resourceWeight : ℚ
  handoffWeight : ℚ
deriving DecidableEq

/-- A well-formed configuration has non-negative weights (each weight
scales a penalty in its sub-signal's stated direction). -/
def HealthConfig.Valid (c : HealthConfig) : Prop :=
  0 ≤ c.anomalyWeight ∧ 0 ≤ c.churnWeight ∧ 0 ≤ c.resourceWeight ∧
    0 ≤ c.handoffWeight

instance (c : HealthConfig) : Decidable c.Valid := by
  unfold HealthConfig.Valid
  infer_instance

/-- The weighted penalty aggregated over the four sub-signals:
anomaly density, churn, resource spend and actor-handoff roughness. -/
def healthPenalty (c : HealthConfig) (l : List EventEnvelope) : ℚ :=
  c.anomalyWeight * (l.countP isAnomaly : ℚ) +
  c.churnWeight * (l.countP isChurn : ℚ) +
  c.resourceWeight * resourceTotal l +
  c.handoffWeight * (roleSwitches l : ℚ)

/-- Modelled from the spec: the AnalyticsEngine health score (0–100), a
weighted composite of anomaly density, churn ratio, resource efficiency
and actor-handoff smoothness, monotone in each sub-signal's stated
direction (the AnalyticsEngine is not in the source tree). -/
def healthScore (c : HealthConfig) (l : List EventEnvelope) : ℚ :=
  max 0 (100 - healthPenalty c l)

/-- One entry of a HandoffPacket's `decisions_log`. -/
structure DecisionEntry where
  decision : String
  rationale : String
  supporting_event_ids : List String
deriving DecidableEq

/-- One entry of a HandoffPacket's `open_threads`. -/
structure OpenThread where
  thread_id : String
  evidence_event_ids : List String
deriving DecidableEq

/-- One entry of a HandoffPacket's `risks`. -/
structure RiskEntry where
  risk : String
  severity : String
  mitigation : Option String
deriving DecidableEq

/-- One continuity probe result. -/
structure ProbeResult where
  probe_category : String
  pass : Bool
  detail : String
deriving DecidableEq

/-- The HandoffPacket produced by one context-window transition. -/
structure HandoffPacket where
  handoff_id : String
  source_session_id : String
  target_session_id : String
  mission_statement : String
  open_threads : List OpenThread
  decisions_log : List DecisionEntry
  artifacts_refs : List String
  risks : List RiskEntry
  coverage_score : ℚ
  confidence_score : ℚ
  invariants_passed : Bool
  continuity_probe_results : List ProbeResult
deriving DecidableEq

/-- The states of the HandoffCoordinator transition state machine. -/
inductive HandoffState where
  | TRIGGERED | FROZEN | SNAPSHOTTED | COMPRESSED | PRUNED | VALIDATED
  | BOOTSTRAPPED | VERIFIED | COMPLETED | FAILED
deriving DecidableEq

/-- The packet's required identity and mission fields are non-empty. -/
def packetRequiredOk (p : HandoffPacket) : Bool :=
  !p.handoff_id.isEmpty && !p.source_session_id.isEmpty &&
  !p.target_session_id.isEmpty && !p.mission_statement.isEmpty

/-- Every `decisions_log` entry cites at least one supporting event id
(evidence-grounded, never summary-only). -/
def decisionsGrounded (p : HandoffPacket) : Bool :=
  p.decisions_log.all (fun d => !d.supporting_event_ids.isEmpty)

/-- Modelled from the spec: the VALIDATED step of the HandoffCoordinator —
schema and invariant checks run; when `invariants_passed` is false,
required fields are missing, or a decision lacks supporting evidence, the
machine transitions to FAILED, otherwise to VALIDATED (the
HandoffCoordinator is not in the source tree). -/
def validateStep (p : HandoffPacket) : HandoffState :=
  if p.invariants_passed && packetRequiredOk p && decisionsGrounded p
  then HandoffState.VALIDATED
  else HandoffState.FAILED

/-- An HTTP response as `fetchJson` observes it: `ok`, status data and the
body text. -/
structure HttpResponse where
  ok : Bool
  status : Nat
  statusText : String
  body : String
deriving DecidableEq

/-- `fetchJson` from `api/logs.ts`, embedded over the stream of responses
the network would deliver to successive fetch attempts.  The result pairs
the number of fetch attempts the function performs with its outcome: the
code calls `fetch` exactly once and, when `response.ok` is false, throws
an `Error` carrying the status, status text and the first 500 characters
of the body.  An empty stream models a rejected `fetch` (network error),
which propagates. -/
def fetchJson (responses : List HttpResponse) : Nat × Except String String :=
  match responses with
  | [] => (1, Except.error "network error")
  | r :: _ =>
      if r.ok then (1, Except.ok r.body)
      else
        (1, Except.error
          (toString r.status ++ " " ++ r.statusText ++ ": " ++ r.body.take 500))

/-- The response shape of the paginated events endpoint
(`SessionEventsResponse` in `api/logs.ts`). -/
structure SessionEventsResponse where
  session_id : String
  offset : Nat
  limit : Nat
  next_offset : Option Nat
  total_after_since : Nat
  events : List StoredEvent
  ordered : Bool
  gap_free : Bool
  deterministic : Bool
deriving DecidableEq

/-- Modelled from the spec: the paginated events endpoint — slices the
session's events after `since` by `offset`/`limit`, returns `next_offset`
(or null at the end) and the explicit ordered/gap-free/deterministic
guarantee booleans (the endpoint implementation is not in the source
tree; `SessionEventsResponse` and its client are). -/
def sessionEventsPage (L : Ledger) (sid : String) (since offset limit : Nat) :
    SessionEventsResponse :=
  let evs := (L.events sid).filter (fun e => since ≤ e.sequence)
  let total := evs.length
  { session_id := sid
    offset := offset
    limit := limit
    next_offset := if offset + limit < total then some (offset + limit) else none
    total_after_since := total
    events := (evs.drop offset).take limit
    ordered := true
    gap_free := true
    deterministic := true }

/-- `canNext` from `App.tsx`: the Next button is enabled exactly when a
loaded page's `next_offset` is neither null nor undefined. -/
def canNext (page : Option SessionEventsResponse) : Bool :=
  match page with
  | none => false
  | some p => p.next_offset.isSome

/-- The Next button's click handler from `App.tsx`:
`setOffset(eventsPage?.next_offset ?? offset)`. -/
def nextClick (page : Option SessionEventsResponse) (offset : Nat) : Nat :=
  match page with
  | none => offset
  | some p => p.next_offset.getD offset

/-- The query-parameter value type of `buildUrl`
(`string | number | boolean | null | undefined`; the numbers passed are
integral: limits and offsets). -/
inductive QueryValue where
  | vstr (s : String)
  | vint (n : Int)
  | vbool (b : Bool)
  | vnull
  | vundef
deriving DecidableEq

/-- `String(value)` for the values `buildUrl` keeps; `none` for the
null/undefined values it skips. -/
def renderQuery : QueryValue → Option String
  | QueryValue.vstr s => some s
  | QueryValue.vint n => some (toString n)
  | QueryValue.vbool b => some (cond b "true" "false")
  | QueryValue.vnull => none
  | QueryValue.vundef => none

/-- `URLSearchParams.set`: replaces the value of an existing key (dropping
later duplicates), otherwise appends the pair. -/
def setParam : List (String × String) → String → String → List (String × String)
  | [], k, v => [(k, v)]
  | (k0, v0) :: rest, k, v =>
      if k0 == k then (k, v) :: rest.filter (fun p => p.1 ≠ k)
      else (k0, v0) :: setParam rest k v

/-- The serialized search part of a URL: empty when there are no
parameters, otherwise a leading question mark and ampersand-joined
key-value pairs. -/
def searchOf (ps : List (String × String)) : String :=
  match ps with
  | [] => ""
  | _ => "?" ++ String.intercalate "&" (ps.map (fun p => p.1 ++ "=" ++ p.2))

/-- The `API_BASE` default of `api/logs.ts`. -/
def apiBase : String := "/api/v1"

/-- The pathname/search state of `new URL(API_BASE + path, origin)` as
`buildUrl` uses it. -/
structure UrlState where
  origin : String
  pathname : String
  params : List (String × String)

/-- One iteration of `buildUrl`'s forEach over `Object.entries(params)`:
null/undefined values are skipped, every other value is set (as its string
rendering) on the URL's search parameters. -/
def buildUrlStep (u : UrlState) (kv : String × QueryValue) : UrlState :=
  match renderQuery kv.2 with
  | none => u
  | some s => { u with params := setParam u.params kv.1 s }

/-- `buildUrl` from `api/logs.ts`: resolves `API_BASE + path` against the
window origin, sets each non-null defined parameter, and returns only
`pathname + search`. -/
def buildUrl (origin path : String) (params : List (String × QueryValue)) :
    String :=
  let u : UrlState := { origin := origin, pathname := apiBase ++ path, params := [] }
  let u := params.foldl buildUrlStep u
  u.pathname ++ searchOf u.params

/-- A raw envelope with every required field present, enum fields inside
the closed sets, and no cost/perf or safety field supplied. -/
def exRawOk : RawEnvelope :=
  { schema_version := some "1.0"
    event_id := some "evt-1"
    parent_event_id := none
    session_id := some "sess-1"
    trace_id := some "tr-1"
    timestamp_utc := some "2026-02-10T00:00:00Z"
    actor_id := some "agent-a"
    actor_role := some "DEV"
    channel := some "LOCAL"
    event_type := some "TASK_STARTED"
    payload := some []
    safety_flags := none
    token_in := none
    token_out := none
    latency_ms := none
    cost_usd := none }

/-- `exRawOk` with a negative `token_in`. -/
def exRawNegToken : RawEnvelope := { exRawOk with token_in := some (-1 : ℚ) }

/-- The ledger's sequencing invariant: every session's stored events carry
exactly the sequences `0, 1, …, n-1` in order. -/
def SeqInv (L : Ledger) : Prop :=
  ∀ sid, (L.events sid).map StoredEvent.sequence =
    List.range (L.events sid).length

/-- A parsed envelope for concrete health-score inputs: a `DEV` event with
one safety flag and no resource spend. -/
def exAnomalyEnvelope : EventEnvelope :=
  { schema_version := "1.0"
    event_id := "evt-2"
    parent_event_id := none
    session_id := "sess-1"
    trace_id := "tr-1"
    timestamp_utc := "2026-02-10T00:00:01Z"
    actor_id := "agent-a"
    actor_role := "DEV"
    channel := "LOCAL"
    event_type := "TASK_FAILED"
    payload := []
    safety_flags := ["policy"]
    token_in := 0
    token_out := 0
    latency_ms := 0
    cost_usd := 0 }

/-- A unit-weight health configuration. -/
def exConfig : HealthConfig :=
  { anomalyWeight := 1, churnWeight := 1, resourceWeight := 1, handoffWeight := 1 }

/-- A handoff packet whose single decision entry cites no supporting
event id. -/
def exPacketNoEvidence : HandoffPacket :=
  { handoff_id := "h-1"
    source_session_id := "sess-1"
    target_session_id := "sess-2"
    mission_statement := "ship phase 2"
    open_threads := []
    decisions_log := [{ decision := "adopt protocol v1"
                        rationale := "research conclusions"
                        supporting_event_ids := [] }]
    artifacts_refs := []
    risks := []
    coverage_score := 9/10
    confidence_score := 9/10
    invariants_passed := true
    continuity_probe_results := [] }

/-- A transiently failing HTTP response. -/
def exFailResponse : HttpResponse :=
  { ok := false, status := 503, statusText := "Service Unavailable", body := "retry later" }

/-- A succeeding HTTP response. -/
def exOkResponse : HttpResponse :=
  { ok := true, status := 200, statusText := "OK", body := "[]" }

section ParseTheorems

/-- `parseEnvelope` succeeds exactly when all required fields are present,
the enum fields are inside their closed sets, and the cost/perf fields
satisfy their refinements. -/
theorem parse_isOk_iff (r : RawEnvelope) :
    (parseEnvelope r).isOk = true ↔
      (requiredPresent r = true ∧ roleOk r = true ∧ channelOk r = true ∧
        costOk r = true) := by
  obtain ⟨sv, eid, pid, sid, tid, ts, aid, role, ch, et, pay, fl, tin, tout, lat, cost⟩ := r
  obtain _ | sv := sv
  · simp [parseEnvelope, requiredPresent, Except.isOk, Except.toBool]
  obtain _ | eid := eid
  · simp [parseEnvelope, requiredPresent, Except.isOk, Except.toBool]
  obtain _ | sid := sid
  · simp [parseEnvelope, requiredPresent, Except.isOk, Except.toBool]
  obtain _ | tid := tid
  · simp [parseEnvelope, requiredPresent, Except.isOk, Except.toBool]
  obtain _ | ts := ts
  · simp [parseEnvelope, requiredPresent, Except.isOk, Except.toBool]
  obtain _ | aid := aid
  · simp [parseEnvelope, requiredPresent, Except.isOk, Except.toBool]
  obtain _ | role := role
  · simp [parseEnvelope, requiredPresent, Except.isOk, Except.toBool]
  obtain _ | ch := ch
  · simp [parseEnvelope, requiredPresent, Except.isOk, Except.toBool]
  obtain _ | et := et
  · simp [parseEnvelope, requiredPresent, Except.isOk, Except.toBool]
  obtain _ | pay := pay
  · simp [parseEnvelope, requiredPresent, Except.isOk, Except.toBool]
  simp only [parseEnvelope, requiredPresent, roleOk, channelOk, Option.all,
    Option.isSome_some, Bool.and_self, Bool.and_true, Bool.true_and]
  split_ifs with h1 h2 h3 <;> simp_all [Except.isOk, Except.toBool]

/-- A successful parse carries over `safety_flags`, defaulting an absent
field to the empty list. -/
theorem parse_ok_flags (r : RawEnvelope) (e : EventEnvelope)
    (h : parseEnvelope r = Except.ok e) :
    e.safety_flags = r.safety_flags.getD [] := by
  obtain ⟨sv, eid, pid, sid, tid, ts, aid, role, ch, et, pay, fl, tin, tout, lat, cost⟩ := r
  obtain _ | sv := sv
  · simp [parseEnvelope] at h
  obtain _ | eid := eid
  · simp [parseEnvelope] at h
  obtain _ | sid := sid
  · simp [parseEnvelope] at h
  obtain _ | tid := tid
  · simp [parseEnvelope] at h
  obtain _ | ts := ts
  · simp [parseEnvelope] at h
  obtain _ | aid := aid
  · simp [parseEnvelope] at h
  obtain _ | role := role
  · simp [parseEnvelope] at h
  obtain _ | ch := ch
  · simp [parseEnvelope] at h
  obtain _ | et := et
  · simp [parseEnvelope] at h
  obtain _ | pay := pay
  · simp [parseEnvelope] at h
  simp only [parseEnvelope] at h
  split_ifs at h
  simp only [Except.ok.injEq] at h
  subst h
  rfl

/-- C1 (counterexample): an envelope with every required field present and
`actor_role`/`channel` inside the closed sets is nevertheless rejected by
validation, because its `token_in` is negative — so validation does not
fail *exactly* on missing fields or out-of-set enums. -/
theorem claim1_counterexample :
    requiredPresent exRawNegToken = true ∧ roleOk exRawNegToken = true ∧
      channelOk exRawNegToken = true ∧
      (parseEnvelope exRawNegToken).isOk = false := by
  decide

/-- C1 (amended): validation succeeds exactly when every required field is
present, `actor_role` and `channel` are inside their closed sets, and the
cost/perf fields satisfy their refinements (non-negative integers for
`token_in`/`token_out`/`latency_ms`, non-negative for `cost_usd`). -/
theorem claim1_validation_characterization (r : RawEnvelope) :
    (parseEnvelope r).isOk = true ↔
      (requiredPresent r = true ∧ roleOk r = true ∧ channelOk r = true ∧
        costOk r = true) :=
  parse_isOk_iff r

/-- C8: when the required fields are present and the enum fields are inside
their closed sets, validation accepts the envelope exactly when
`token_in`, `token_out` and `latency_ms` are non-negative integers and
`cost_usd` is non-negative; a negative or non-integer value in any of
these fields is rejected. -/
theorem claim8_cost_field_validation (r : RawEnvelope)
    (hreq : requiredPresent r = true) (hrole : roleOk r = true)
    (hch : channelOk r = true) :
    (parseEnvelope r).isOk = true ↔ costOk r = true := by
  rw [parse_isOk_iff]
  simp [hreq, hrole, hch]

/-- Witness for C8 at a concrete in-set envelope with a negative
`token_in`. -/
theorem claim8_cost_field_validation_witness :
    requiredPresent exRawNegToken = true ∧ roleOk exRawNegToken = true ∧
      channelOk exRawNegToken = true ∧
      ((parseEnvelope exRawNegToken).isOk = true ↔ costOk exRawNegToken = true) :=
  ⟨by decide, by decide, by decide,
    claim8_cost_field_validation exRawNegToken (by decide) (by decide) (by decide)⟩

/-- C9: an envelope in which `safety_flags` is omitted validates with the
parsed envelope's `safety_flags` equal to the empty list. -/
theorem claim9_safety_flags_default (r : RawEnvelope) (h : r.safety_flags = none)
    (e : EventEnvelope) (he : parseEnvelope r = Except.ok e) :
    e.safety_flags = [] := by
  rw [parse_ok_flags r e he, h]
  rfl

/-- Witness for C9 at a concrete envelope with no `safety_flags` field. -/
theorem claim9_safety_flags_default_witness :
    exRawOk.safety_flags = none ∧
      ∃ e, parseEnvelope exRawOk = Except.ok e ∧ e.safety_flags = [] :=
  ⟨rfl, ⟨_, rfl, claim9_safety_flags_default exRawOk rfl _ rfl⟩⟩

end ParseTheorems

section LedgerTheorems

/-- Updating a session's event list makes that list its stored events. -/
theorem events_update_self (s : List (String × List StoredEvent)) (sid : String)
    (evs : List StoredEvent) :
    Ledger.events ⟨updateSessions s sid evs⟩ sid = evs := by
  induction s with
  | nil => simp [Ledger.events, Ledger.eventsAux, updateSessions]
  | cons hd tl ih =>
      obtain ⟨k, v⟩ := hd
      by_cases hk : k == sid
      · simp [Ledger.events, Ledger.eventsAux, updateSessions, hk]
      · simpa [Ledger.events, Ledger.eventsAux, updateSessions, hk] using ih

/-- Updating one session leaves every other session's events unchanged. -/
theorem events_update_other (s : List (String × List StoredEvent))
    (sid sid' : String) (h : ¬sid' = sid) (evs : List StoredEvent) :
    Ledger.events ⟨updateSessions s sid evs⟩ sid' = Ledger.events ⟨s⟩ sid' := by
  have hss : (sid == sid') = false := beq_eq_false_iff_ne.mpr (fun hs => h hs.symm)
  induction s with
  | nil => simp [Ledger.events, Ledger.eventsAux, updateSessions, hss]
  | cons hd tl ih =>
      obtain ⟨k, v⟩ := hd
      by_cases hk : k == sid
      · have hks : k = sid := by simpa using hk
        subst hks
        simp [Ledger.events, Ledger.eventsAux, updateSessions, hss]
      · by_cases hk' : k == sid'
        · simp [Ledger.events, Ledger.eventsAux, updateSessions, hk, hk']
        · simpa [Ledger.events, Ledger.eventsAux, updateSessions, hk, hk'] using ih

/-- A (possibly failing) append only ever extends a session's event list,
assigning the next sequence: stored envelopes are never mutated or
deleted. -/
theorem appendOr_extends (L : Ledger) (r : RawEnvelope) (sid : String) :
    ∃ t, (L.appendOr r).events sid = L.events sid ++ t := by
  cases hp : parseEnvelope r with
  | error e =>
      refine ⟨[], ?_⟩
      simp [Ledger.appendOr, Ledger.append, hp]
  | ok env =>
      by_cases hs : sid = env.session_id
      · rw [hs]
        refine ⟨[⟨(L.events env.session_id).length, env⟩], ?_⟩
        simp [Ledger.appendOr, Ledger.append, hp, events_update_self]
      · refine ⟨[], ?_⟩
        simp [Ledger.appendOr, Ledger.append, hp, events_update_other _ _ _ hs]

/-- The empty ledger satisfies the sequencing invariant. -/
theorem seqInv_empty : SeqInv Ledger.empty := by
  intro sid
  simp [Ledger.empty, Ledger.events, Ledger.eventsAux]

/-- `appendOr` preserves the sequencing invariant. -/
theorem seqInv_appendOr (L : Ledger) (r : RawEnvelope) (h : SeqInv L) :
    SeqInv (L.appendOr r) := by
  intro sid
  cases hp : parseEnvelope r with
  | error e => simpa [Ledger.appendOr, Ledger.append, hp] using h sid
  | ok env =>
      by_cases hs : sid = env.session_id
      · rw [hs]
        have hinv := h env.session_id
        simp only [Ledger.appendOr, Ledger.append, hp, events_update_self]
        rw [List.map_append, hinv, List.length_append]
        simp [List.range_succ]
      · simpa [Ledger.appendOr, Ledger.append, hp,
          events_update_other _ _ _ hs] using h sid

/-- Every ledger built by appending envelopes to the empty ledger
satisfies the sequencing invariant. -/
theorem seqInv_appendAll (rs : List RawEnvelope) : SeqInv (appendAll rs) := by
  suffices hgen : ∀ L, SeqInv L → SeqInv (rs.foldl Ledger.appendOr L) by
    exact hgen Ledger.empty seqInv_empty
  induction rs with
  | nil => intro L hL; simpa using hL
  | cons r tl ih =>
      intro L hL
      exact ih _ (seqInv_appendOr L r hL)

/-- C2: on any ledger built by appends, reading a session from the start
returns envelopes whose sequence values are exactly `0, 1, 2, …` —
strictly increasing and contiguous with no gaps — and appending never
mutates or deletes an already-stored envelope, only extends the store. -/
theorem claim2_gap_free_append_only (rs : List RawEnvelope) (sid : String) (n : Nat) :
    (((appendAll rs).read sid 0 n).map StoredEvent.sequence =
      (List.range ((appendAll rs).events sid).length).take n) ∧
    (∀ r : RawEnvelope, ∃ t,
      ((appendAll rs).appendOr r).events sid = (appendAll rs).events sid ++ t) := by
  constructor
  · unfold Ledger.read
    have hfil : ((appendAll rs).events sid).filter (fun e => 0 ≤ e.sequence) =
        (appendAll rs).events sid :=
      List.filter_eq_self.mpr (fun e _ => by simp)
    rw [hfil, List.map_take, seqInv_appendAll rs sid]
  · exact fun r => appendOr_extends _ r sid

/-- C3: `read` is deterministic and idempotent (equal arguments on an
unchanged ledger give equal results), returns a sub-list of the stored
session events (never reorders), and its results are in strictly
increasing sequence order. -/
theorem claim3_read_deterministic (rs : List RawEnvelope) (sid : String)
    (since limit : Nat) :
    ((appendAll rs).read sid since limit = (appendAll rs).read sid since limit) ∧
    ((appendAll rs).read sid since limit).Sublist ((appendAll rs).events sid) ∧
    ((appendAll rs).read sid since limit).Pairwise
      (fun a b => a.sequence < b.sequence) := by
  have hsub : ((appendAll rs).read sid since limit).Sublist
      ((appendAll rs).events sid) :=
    (List.take_sublist _ _).trans (List.filter_sublist _)
  refine ⟨rfl, hsub, ?_⟩
  have hrange := List.pairwise_lt_range ((appendAll rs).events sid).length
  rw [← seqInv_appendAll rs sid] at hrange
  exact (List.pairwise_map.mp hrange).sublist hsub

end LedgerTheorems

section AnalyticsTheorems

/-- Splicing one event into a stream never removes an abrupt role switch:
the switch count is monotone under insertion. -/
theorem roleSwitches_insert (l1 l2 : List EventEnvelope) (x : EventEnvelope) :
    roleSwitches (l1 ++ l2) ≤ roleSwitches (l1 ++ x :: l2) := by
  induction l1 with
  | nil =>
      cases l2 with
      | nil => simp [roleSwitches]
      | cons b r =>
          simp only [List.nil_append, roleSwitches]
          exact Nat.le_add_left _ _
  | cons a t ih =>
      cases t with
      | nil =>
          cases l2 with
          | nil => simp [roleSwitches]
          | cons b r =>
              simp only [List.cons_append, List.nil_append, roleSwitches]
              by_cases h1 : a.actor_role = x.actor_role <;>
                by_cases h2 : x.actor_role = b.actor_role <;>
                  by_cases h3 : a.actor_role = b.actor_role <;>
                    simp_all <;> omega
      | cons c rest =>
          simp only [List.cons_append, roleSwitches] at ih ⊢
          exact Nat.add_le_add_left ih _

/-- The aggregated health penalty is monotone under inserting an anomaly
event of non-negative resource spend, for non-negative weights. -/
theorem healthPenalty_insert (c : HealthConfig) (hc : c.Valid)
    (l1 l2 : List EventEnvelope) (x : EventEnvelope)
    (hres : 0 ≤ resourceSpend x) :
    healthPenalty c (l1 ++ l2) ≤ healthPenalty c (l1 ++ x :: l2) := by
  obtain ⟨ha, hch, hr, hh⟩ := hc
  unfold healthPenalty
  have hcount : ∀ p : EventEnvelope → Bool,
      (l1 ++ l2).countP p ≤ (l1 ++ x :: l2).countP p := by
    intro p
    simp only [List.countP_append, List.countP_cons]
    omega
  have hres2 : resourceTotal (l1 ++ l2) ≤ resourceTotal (l1 ++ x :: l2) := by
    unfold resourceTotal
    simp only [List.map_append, List.sum_append, List.map_cons, List.sum_cons]
    have := hres
    linarith
  have hrole := roleSwitches_insert l1 l2 x
  have cast1 : ((l1 ++ l2).countP isAnomaly : ℚ) ≤ ((l1 ++ x :: l2).countP isAnomaly : ℚ) := by
    exact_mod_cast hcount isAnomaly
  have cast2 : ((l1 ++ l2).countP isChurn : ℚ) ≤ ((l1 ++ x :: l2).countP isChurn : ℚ) := by
    exact_mod_cast hcount isChurn
  have cast3 : ((roleSwitches (l1 ++ l2) : ℚ)) ≤ ((roleSwitches (l1 ++ x :: l2) : ℚ)) := by
    exact_mod_cast hrole
  have t1 := mul_le_mul_of_nonneg_left cast1 ha
  have t2 := mul_le_mul_of_nonneg_left cast2 hch
  have t3 := mul_le_mul_of_nonneg_left hres2 hr
  have t4 := mul_le_mul_of_nonneg_left cast3 hh
  linarith

/-- C4: for every weight configuration (non-negative weights) and every
event stream, inserting one additional anomaly event of non-negative
resource spend anywhere into the stream never increases the computed
health score. -/
theorem claim4_health_monotone (c : HealthConfig) (hc : c.Valid)
    (l1 l2 : List EventEnvelope) (x : EventEnvelope)
    (hx : isAnomaly x = true) (hres : 0 ≤ resourceSpend x) :
    healthScore c (l1 ++ x :: l2) ≤ healthScore c (l1 ++ l2) := by
  unfold healthScore
  have hpen := healthPenalty_insert c hc l1 l2 x hres
  exact max_le_max le_rfl (by linarith)

/-- Witness for C4: inserting the flagged anomaly event into the empty
stream does not increase the unit-weight health score. -/
theorem claim4_health_monotone_witness :
    exConfig.Valid ∧ isAnomaly exAnomalyEnvelope = true ∧
      0 ≤ resourceSpend exAnomalyEnvelope ∧
      healthScore exConfig ([] ++ exAnomalyEnvelope :: []) ≤
        healthScore exConfig ([] ++ []) :=
  ⟨by decide, by decide, by norm_num [resourceSpend, exAnomalyEnvelope],
    claim4_health_monotone exConfig (by decide) [] [] exAnomalyEnvelope
      (by decide) (by norm_num [resourceSpend, exAnomalyEnvelope])⟩

end AnalyticsTheorems

section HandoffTheorems

/-- C5: a HandoffPacket with any `decisions_log` entry lacking a
supporting event id fails the VALIDATED step — the machine transitions to
FAILED. -/
theorem claim5_unsupported_decision_fails (p : HandoffPacket) (d : DecisionEntry)
    (hd : d ∈ p.decisions_log) (hids : d.supporting_event_ids = []) :
    validateStep p = HandoffState.FAILED := by
  have hg : decisionsGrounded p = false := by
    cases hall : decisionsGrounded p
    · rfl
    · have := List.all_eq_true.mp hall d hd
      rw [hids] at this
      simp at this
  unfold validateStep
  rw [hg]
  simp

/-- Witness for C5 on a concrete packet whose only decision entry cites no
supporting event. -/
theorem claim5_unsupported_decision_fails_witness :
    (⟨"adopt protocol v1", "research conclusions", []⟩ : DecisionEntry) ∈
        exPacketNoEvidence.decisions_log ∧
      validateStep exPacketNoEvidence = HandoffState.FAILED :=
  ⟨by decide,
    claim5_unsupported_decision_fails exPacketNoEvidence
      ⟨"adopt protocol v1", "research conclusions", []⟩ (by decide) rfl⟩

end HandoffTheorems

section ClientTheorems

/-- C6 (counterexample): the first fetch hits a transient 503 and a retry
would succeed, yet `fetchJson` performs exactly one attempt and surfaces
an error — the caller does not retry with backoff. -/
theorem claim6_counterexample :
    exFailResponse.ok = false ∧ exOkResponse.ok = true ∧
      (fetchJson [exFailResponse, exOkResponse]).1 = 1 ∧
      (fetchJson [exFailResponse, exOkResponse]).2.isOk = false :=
  ⟨rfl, rfl, rfl, rfl⟩

/-- C6 (amended): `fetchJson` performs exactly one fetch attempt — no
retry, no backoff — and never silently swallows a ledger read error: the
call succeeds exactly when the first response is ok, and otherwise the
error is surfaced to the caller. -/
theorem claim6_no_retry_error_surfaced (responses : List HttpResponse) :
    (fetchJson responses).1 = 1 ∧
      ((fetchJson responses).2.isOk = true ↔
        ∃ r t, responses = r :: t ∧ r.ok = true) := by
  cases responses with
  | nil => simp [fetchJson, Except.isOk, Except.toBool]
  | cons r t =>
      by_cases hr : r.ok = true <;>
        simp [fetchJson, hr, Except.isOk, Except.toBool]

/-- C7: every paginated events response carries `next_offset` — null
exactly when the end of the session's post-`since` events is reached —
together with explicit `ordered`/`gap_free`/`deterministic` booleans; the
client's Next button is offered exactly when `next_offset` is non-null
and advances the offset to it. -/
theorem claim7_pagination (L : Ledger) (sid : String) (since offset limit : Nat) :
    ((sessionEventsPage L sid since offset limit).next_offset = none ↔
      (sessionEventsPage L sid since offset limit).total_after_since ≤
        offset + limit) ∧
    (sessionEventsPage L sid since offset limit).ordered = true ∧
    (sessionEventsPage L sid since offset limit).gap_free = true ∧
    (sessionEventsPage L sid since offset limit).deterministic = true ∧
    (canNext (some (sessionEventsPage L sid since offset limit)) =
      (sessionEventsPage L sid since offset limit).next_offset.isSome) ∧
    (nextClick (some (sessionEventsPage L sid since offset limit)) offset =
      (sessionEventsPage L sid since offset limit).next_offset.getD offset) ∧
    (sessionEventsPage L sid since offset limit).events =
      (((L.events sid).filter (fun e => since ≤ e.sequence)).drop offset).take
        limit := by
  refine ⟨?_, rfl, rfl, rfl, rfl, rfl, rfl⟩
  simp only [sessionEventsPage]
  split_ifs with h <;> simp <;> omega

end ClientTheorems

section UrlTheorems

/-- Setting a key absent from the parameter list appends the pair. -/
theorem setParam_absent (ps : List (String × String)) (k v : String)
    (h : ∀ p ∈ ps, p.1 ≠ k) :
    setParam ps k v = ps ++ [(k, v)] := by
  induction ps with
  | nil => simp [setParam]
  | cons hd tl ih =>
      obtain ⟨k0, v0⟩ := hd
      have hk : (k0 == k) = false :=
        beq_eq_false_iff_ne.mpr (h (k0, v0) (by simp))
      simp only [setParam, hk, Bool.false_eq_true, if_false, List.cons_append,
        List.cons.injEq, true_and]
      exact ih (fun p hp => h p (by simp [hp]))

/-- The forEach of `buildUrl` appends exactly the rendered non-null
defined parameters, in order, after any pre-existing ones. -/
theorem foldl_buildUrlStep (params : List (String × QueryValue))
    (o pa : String) (ps0 : List (String × String))
    (hnd : (params.map Prod.fst).Nodup)
    (hdisj : ∀ kv ∈ params, ∀ p ∈ ps0, p.1 ≠ kv.1) :
    params.foldl buildUrlStep { origin := o, pathname := pa, params := ps0 } =
      { origin := o, pathname := pa,
        params := ps0 ++ params.filterMap
          (fun kv => (renderQuery kv.2).map (fun s => (kv.1, s))) } := by
  induction params generalizing ps0 with
  | nil => simp
  | cons kv tl ih =>
      obtain ⟨k, qv⟩ := kv
      have hndtl : (tl.map Prod.fst).Nodup := hnd.of_cons
      cases hr : renderQuery qv with
      | none =>
          simp only [List.foldl_cons, buildUrlStep, hr]
          rw [ih ps0 hndtl (fun kv2 h2 p hp => hdisj kv2 (by simp [h2]) p hp)]
          simp [hr]
      | some s =>
          simp only [List.foldl_cons, buildUrlStep, hr]
          rw [setParam_absent ps0 k s
            (fun p hp => hdisj (k, qv) (by simp) p hp)]
          rw [ih (ps0 ++ [(k, s)]) hndtl ?_]
          · simp [hr, List.filterMap_cons]
          · intro kv2 h2 p hp
            rcases List.mem_append.mp hp with hp0 | hp1
            · exact hdisj kv2 (by simp [h2]) p hp0
            · have hpk : p = (k, s) := by simpa using hp1
              subst hpk
              have hkne : k ≠ kv2.1 := by
                have hforall : (∀ x : QueryValue, (k, x) ∉ tl) ∧
                    (List.map Prod.fst tl).Nodup := by simpa using hnd
                obtain ⟨k2, q2⟩ := kv2
                intro hkk
                exact hforall.1 q2 ((show k = k2 from hkk).symm ▸ h2)
              simpa using hkne

/-- C10: `buildUrl` omits every null/undefined parameter, includes every
other entry as its string rendering in order, and returns a relative URL
consisting of pathname plus search only — the result is independent of
the window origin, which never contributes to it. -/
theorem claim10_buildUrl (o o2 path : String)
    (params : List (String × QueryValue))
    (hnd : (params.map Prod.fst).Nodup) :
    buildUrl o path params = buildUrl o2 path params ∧
    buildUrl o path params =
      (apiBase ++ path) ++ searchOf (params.filterMap
        (fun kv => (renderQuery kv.2).map (fun s => (kv.1, s)))) ∧
    ∀ kv ∈ params, (renderQuery kv.2 = none ↔
      kv.2 = QueryValue.vnull ∨ kv.2 = QueryValue.vundef) := by
  have hb : ∀ oo : String, buildUrl oo path params =
      (apiBase ++ path) ++ searchOf (params.filterMap
        (fun kv => (renderQuery kv.2).map (fun s => (kv.1, s)))) := by
    intro oo
    have hfold := foldl_buildUrlStep params oo (apiBase ++ path) [] hnd (by simp)
    simp only [buildUrl, hfold, List.nil_append]
  refine ⟨(hb o).trans (hb o2).symm, hb o, ?_⟩
  intro kv _
  cases kv.2 <;> simp [renderQuery]

/-- Witness for C10 on a concrete parameter record mixing kept and
omitted values, under two different origins. -/
theorem claim10_buildUrl_witness :
    ((([("limit", QueryValue.vint 50), ("raw", QueryValue.vbool true),
        ("since", QueryValue.vnull), ("offset", QueryValue.vundef)]).map
          Prod.fst).Nodup) ∧
    buildUrl "http://a.example" "/logs"
        [("limit", QueryValue.vint 50), ("raw", QueryValue.vbool true),
          ("since", QueryValue.vnull), ("offset", QueryValue.vundef)] =
      buildUrl "http://b.example" "/logs"
        [("limit", QueryValue.vint 50), ("raw", QueryValue.vbool true),
          ("since", QueryValue.vnull), ("offset", QueryValue.vundef)] :=
  ⟨by decide,
    (claim10_buildUrl "http://a.example" "http://b.example" "/logs"
      [("limit", QueryValue.vint 50), ("raw", QueryValue.vbool true),
        ("since", QueryValue.vnull), ("offset", QueryValue.vundef)]
      (by decide)).1⟩

end UrlTheorems

end CogniSpace
